import Mathlib

/-!
Verification development for the fritzcollectd FRITZ!Box collector
(`fritzcollectd.py`, `config.py`).

The Python code is shallowly embedded: Python values that flow through the
collector are `PyVal` (numbers as exact rationals, strings); Python dicts
are insertion-ordered association lists with `dget` / `dinsert`; fallible
Python code (raises) returns `Option` / `Except`; the unbounded
`while True` enumeration loop takes explicit fuel; the effectful
`connection.call_action` becomes a pure call function supplied by the
environment, and the sequence of invocations is returned as an explicit
trace.
-/

/-- A Python value as it flows through the collector: numbers are modelled as
exact rationals (the only numeric values the claims exercise are integers and
exact decimal fractions), everything else that the router returns is a
string. -/
inductive PyVal where
  | num (q : ℚ)
  | str (s : String)
deriving DecidableEq

/-- Lookup in a Python dict modelled as an insertion-ordered association
list (`d[k]` returning `none` for a missing key, i.e. `dict.get`). -/
def dget {α β : Type} [DecidableEq α] (k : α) : List (α × β) → Option β
  | [] => none
  | (k', v) :: rest => if k' = k then some v else dget k rest

/-- `d[k] = v` on a Python dict: an existing key keeps its position and gets
the new value, a new key is appended at the end (insertion order). -/
def dinsert {α β : Type} [DecidableEq α] (k : α) (v : β) : List (α × β) → List (α × β)
  | [] => [(k, v)]
  | (k', v') :: rest => if k' = k then (k', v) :: rest else (k', v') :: dinsert k v rest

/-- `d.update(entries)`: apply the entries left to right. -/
def dupdate {α β : Type} [DecidableEq α] (d entries : List (α × β)) : List (α × β) :=
  entries.foldl (fun acc kv => dinsert kv.1 kv.2 acc) d

/-- Numeric value of a decimal digit character. -/
def digToNat (c : Char) : Nat := c.toNat - 48

/-- Value of a string of decimal digits (`none` if a non-digit appears). -/
def decDigits (cs : List Char) : Option Nat :=
  cs.foldlM (fun acc c => if c.isDigit then some (10 * acc + digToNat c) else none) 0

/-- Model of Python `float()` on a string for the decimal forms the router
returns: optional minus sign, digits, optional fractional part; anything
else raises `ValueError`, modelled as `none`. -/
def pyFloatOfString (s : String) : Option ℚ :=
  let cs := s.toList
  let neg : Bool := cs.head? = some '-'
  let body := if neg then cs.tail else cs
  let intPart := body.takeWhile (·.isDigit)
  let rest := body.dropWhile (·.isDigit)
  let mag : Option ℚ :=
    match rest with
    | [] =>
      if intPart = [] then none
      else (decDigits intPart).map (fun n => (n : ℚ))
    | '.' :: frac =>
      if intPart = [] ∧ frac = [] then none
      else
        match decDigits intPart, decDigits frac with
        | some ip, some fp => some ((ip : ℚ) + (fp : ℚ) / (10 : ℚ) ^ frac.length)
        | _, _ => none
    | _ => none
  mag.map (fun q => if neg then -q else q)

/-- Python `float(x)` on a collector value. -/
def pyFloat : PyVal → Option ℚ
  | .num q => some q
  | .str s => pyFloatOfString s

/-- Python `8 * x`: numeric multiplication on a number, repetition on a
string (neither raises). -/
def pyMul8 : PyVal → PyVal
  | .num q => .num (8 * q)
  | .str s => .str (String.join (List.replicate 8 s))

/-- Python `str(x)` as the instance namer uses it: the values reaching it on
the embedded code path are the integer enumeration index and raw strings. -/
def pyStr : PyVal → String
  | .num q => if q.den = 1 then toString q.num else toString q.num ++ "/" ++ toString q.den
  | .str s => s

/-- `lambda x: 1 if x == 'Up' else 0` -/
def convPhysicalLinkStatus (x : PyVal) : Option PyVal :=
  some (if x = .str "Up" then .num 1 else .num 0)

/-- `lambda x: 1 if x == 'Connected' else 0` -/
def convConnectionStatus (x : PyVal) : Option PyVal :=
  some (if x = .str "Connected" then .num 1 else .num 0)

/-- `lambda x: 8 * x` -/
def convByteRate (x : PyVal) : Option PyVal :=
  some (pyMul8 x)

/-- `lambda x: float(x) / 10` -/
def convTemperature (x : PyVal) : Option PyVal :=
  (pyFloat x).map (fun q => .num (q / 10))

/-- `lambda x: 1 if x == 'ON' else 0` -/
def convSwitchState (x : PyVal) : Option PyVal :=
  some (if x = .str "ON" then .num 1 else .num 0)

/-- `lambda x: float(x) / 1000` -/
def convEnergy (x : PyVal) : Option PyVal :=
  (pyFloat x).map (fun q => .num (q / 1000))

/-- `lambda x: float(x) / 100` -/
def convPower (x : PyVal) : Option PyVal :=
  (pyFloat x).map (fun q => .num (q / 100))

/-- `FritzCollectd.CONVERSION`: the value conversion registry keyed by raw
output field name. -/
def CONVERSION : List (String × (PyVal → Option PyVal)) := [
  ("NewPhysicalLinkStatus", convPhysicalLinkStatus),
  ("NewConnectionStatus", convConnectionStatus),
  ("NewByteSendRate", convByteRate),
  ("NewByteReceiveRate", convByteRate),
  ("NewTemperatureCelsius", convTemperature),
  ("NewSwitchState", convSwitchState),
  ("NewMultimeterEnergy", convEnergy),
  ("NewMultimeterPower", convPower)
]

/-- `self.CONVERSION.get(action_argument, lambda x: x)(raw)`: look up the
conversion by exact field name, defaulting to the identity. -/
def convert (name : String) (v : PyVal) : Option PyVal :=
  ((dget name CONVERSION).getD (fun x => some x)) v

/-- `FritzCollectd.ServiceAction`: a remote capability (service) name, an
operation (action) name, and optional enumeration/instancing metadata. -/
structure ServiceAction where
  service : String
  action : String
  index_field : Option String := none
  instance_field : Option String := none
  instancePrefix : Option String := none
deriving DecidableEq

/-- `FritzCollectd.Value`: how one raw output field becomes a metric. -/
structure Value where
  value_instance : String
  value_type : String
deriving DecidableEq

/-- The named outputs of interest of one ServiceAction, in declaration
order: raw output field name to metric description. -/
abbrev OutputMapping := List (String × Value)

/-- A schema: an ordered sequence of (ServiceAction, OutputMapping) pairs. -/
abbrev Schema := List (ServiceAction × OutputMapping)

/-- `FritzCollectd.SERVICE_ACTIONS`: the schema usable without credentials. -/
def SERVICE_ACTIONS : Schema := [
  (⟨"WANIPConnection:1", "GetStatusInfo", none, none, none⟩,
   [("NewConnectionStatus", ⟨"constatus", "gauge"⟩),
    ("NewUptime", ⟨"uptime", "uptime"⟩)]),
  (⟨"WANCommonInterfaceConfig:1", "GetCommonLinkProperties", none, none, none⟩,
   [("NewPhysicalLinkStatus", ⟨"dslstatus", "gauge"⟩),
    ("NewLayer1DownstreamMaxBitRate", ⟨"downstreammax", "bitrate"⟩),
    ("NewLayer1UpstreamMaxBitRate", ⟨"upstreammax", "bitrate"⟩)]),
  (⟨"WANCommonInterfaceConfig:1", "GetAddonInfos", none, none, none⟩,
   [("NewByteSendRate", ⟨"sendrate", "bitrate"⟩),
    ("NewByteReceiveRate", ⟨"receiverate", "bitrate"⟩),
    ("NewTotalBytesSent", ⟨"totalbytessent", "bytes"⟩),
    ("NewTotalBytesReceived", ⟨"totalbytesreceived", "bytes"⟩)])
]

/-- `FritzCollectd.SERVICE_ACTIONS_AUTH`: the schema requiring credentials. -/
def SERVICE_ACTIONS_AUTH : Schema := [
  (⟨"LANEthernetInterfaceConfig:1", "GetStatistics", none, none, none⟩,
   [("NewBytesSent", ⟨"lan_totalbytessent", "bytes"⟩),
    ("NewBytesReceived", ⟨"lan_totalbytesreceived", "bytes"⟩)]),
  (⟨"X_AVM-DE_Homeauto:1", "GetGenericDeviceInfos",
    some "NewIndex", some "NewIndex", some "dect"⟩,
   [("NewMultimeterPower", ⟨"power", "power"⟩),
    ("NewMultimeterEnergy", ⟨"energy", "power"⟩),
    ("NewTemperatureCelsius", ⟨"temperature", "temperature"⟩),
    ("NewSwitchState", ⟨"switchstate", "gauge"⟩)]),
  (⟨"DeviceInfo:1", "GetInfo", none, none, none⟩,
   [("NewUpTime", ⟨"boxuptime", "uptime"⟩)])
]

/-- `FritzCollectd._filter_service_actions`: delete every schema entry whose
(service, action) pair is not among the connection's advertised action
names. Deleting while iterating over a copy of the keys of an ordered dict
amounts to filtering with order preserved. -/
def filter_service_actions (schema : Schema) (actionnames : List (String × String)) : Schema :=
  schema.filter (fun e => decide ((e.1.service, e.1.action) ∈ actionnames))

/-- Key of the poller's values dict: (plugin_instance, value_instance). -/
abbrev PKey := String × String

/-- Entry of the poller's values dict: (value_type, value). -/
abbrev TV := String × PyVal

/-- The poller's result: `{(plugin_instance, value_instance): (value_type, value)}`. -/
abbrev Values := List (PKey × TV)

/-- The loop in `FritzCollectd.read` that folds one poller result into the
influx `fields` dict: `fields[value_instance] = value` for each entry, in
dict order — the plugin instance and the value type are dropped. -/
def mergeFields (fields : List (String × PyVal)) (vals : Values) : List (String × PyVal) :=
  vals.foldl (fun acc kv => dinsert kv.1.2 kv.2.2 acc) fields

/-- The merged batch `read` sends to the sink: the non-auth values folded
into an empty fields dict, then the auth values folded on top. -/
def readBatch (valsNonAuth valsAuth : Values) : List (String × PyVal) :=
  mergeFields (mergeFields [] valsNonAuth) valsAuth

/-- The output suffixes (value_instance components) of a poller result, in
dict order. -/
def valSuffixes (vals : Values) : List String :=
  vals.map (fun kv => kv.1.2)

/-- A non-auth poller result with a single entry under instance "wan". -/
def cexNonAuth : Values := [(("wan", "uptime"), ("uptime", .num 1))]

/-- An auth poller result with a single entry under instance "box", sharing
the output suffix "uptime" with `cexNonAuth` but not its full key. -/
def cexAuth : Values := [(("box", "uptime"), ("uptime", .num 2))]

/-- Failure channel of a read cycle: `invalidData` is an XMLSyntaxError
raised by `call_action`; `keyError` and `valueError` are Python KeyError /
ValueError raised while building points; `outOfFuel` is an artifact of the
fuel-bounded embedding of the source's unbounded `while True` loop. -/
inductive PollErr where
  | invalidData
  | keyError
  | valueError
  | outOfFuel
deriving DecidableEq

/-- Raw output-name to raw value mapping returned by one remote call. -/
abbrev ReadingSet := List (String × PyVal)

/-- The effectful `connection.call_action(service, action, **parameters)`
as a pure function supplied by the environment; `Except.error` models an
XMLSyntaxError. -/
abbrev CallFn := String → String → Option (String × Nat) → Except Unit ReadingSet

/-- Record of one remote invocation: service, action, parameters. -/
abbrev CallRec := String × String × Option (String × Nat)

/-- `'{}'.format(x)` on an optional string: Python prints `None` for the
missing value. -/
def optStr : Option String → String
  | some s => s
  | none => "None"

/-- `'-'.join(filter(None, segments))`: join the non-empty segments with a
single separator. -/
def joinNonEmpty (segs : List String) : String :=
  String.intercalate "-" (segs.filter (· ≠ ""))

/-- The dict comprehension in `_read_data`: one
`(plugin_instance, value_instance) ↦ (value_type, converted value)` pair
per mapped output, in mapping order; a missing readings key raises
KeyError, a failing conversion raises ValueError. -/
def buildPoints (plugInst : String) (readings : ReadingSet) :
    OutputMapping → Except PollErr (List (PKey × TV))
  | [] => .ok []
  | (arg, val) :: rest =>
    match dget arg readings with
    | none => .error .keyError
    | some raw =>
      match convert arg raw with
      | none => .error .valueError
      | some v =>
        match buildPoints plugInst readings rest with
        | .error e => .error e
        | .ok pts => .ok (((plugInst, val.value_instance), (val.value_type, v)) :: pts)

/-- `readings.update(parameters)`: performed only when the action declares
an instance field; parameters hold at most the index field. -/
def updReadings (params : Option (String × Nat)) (readings : ReadingSet) : ReadingSet :=
  match params with
  | some (f, i) => dinsert f (.num i) readings
  | none => readings

/-- The body of one successful `_read_data` loop iteration: when the action
declares an instance field the readings are updated with the enumeration
parameters, the plugin instance is derived from the base instance and the
prefixed instance-field value, and the points of all mapped outputs are
built. -/
def pointsOf (base : String) (sa : ServiceAction) (params : Option (String × Nat))
    (readings : ReadingSet) (outputs : OutputMapping) : Except PollErr (List (PKey × TV)) :=
  match sa.instance_field with
  | none => buildPoints (joinNonEmpty [base]) readings outputs
  | some fld =>
    match dget fld (updReadings params readings) with
    | none => .error .keyError
    | some v =>
      buildPoints (joinNonEmpty [base, optStr sa.instancePrefix ++ pyStr v])
        (updReadings params readings) outputs

/-- The `while True` loop of `_read_data` for one schema entry, with
explicit fuel: invoke the action (with the index parameter when the entry
is indexed), stop on an empty ReadingSet, otherwise fold the new points
into the values dict; a non-indexed entry stops after one successful read,
an indexed one repeats at the next index. Returns the final values dict
and the trace of invocations made. -/
def pollLoop (call : CallFn) (base : String) (sa : ServiceAction) (outputs : OutputMapping) :
    Nat → Nat → Values → Except PollErr (Values × List CallRec)
  | 0, _, _ => .error .outOfFuel
  | fuel + 1, index, acc =>
    let params := sa.index_field.map (fun f => (f, index))
    match call sa.service sa.action params with
    | .error _ => .error .invalidData
    | .ok readings =>
      if readings = [] then .ok (acc, [(sa.service, sa.action, params)])
      else
        match pointsOf base sa params readings outputs with
        | .error e => .error e
        | .ok pts =>
          let acc' := dupdate acc pts
          if sa.index_field.isSome then
            match pollLoop call base sa outputs fuel (index + 1) acc' with
            | .error e => .error e
            | .ok (vals, tr) => .ok (vals, (sa.service, sa.action, params) :: tr)
          else .ok (acc', [(sa.service, sa.action, params)])

/-- The outer loop of `_read_data`: each schema entry in order, threading
the shared values dict, concatenating the invocation traces. -/
def readEntries (call : CallFn) (base : String) (fuel : Nat) :
    Schema → Values → Except PollErr (Values × List CallRec)
  | [], acc => .ok (acc, [])
  | (sa, outputs) :: rest, acc =>
    match pollLoop call base sa outputs fuel 0 acc with
    | .error e => .error e
    | .ok (acc', tr) =>
      match readEntries call base fuel rest acc' with
      | .error e => .error e
      | .ok (vals, tr') => .ok (vals, tr ++ tr')

/-- `FritzCollectd._read_data`: a missing connection contributes nothing;
otherwise poll every schema entry. -/
def read_data (fuel : Nat) (base : String) (schema : Schema) (conn : Option CallFn) :
    Except PollErr (Values × List CallRec) :=
  match conn with
  | none => .ok ([], [])
  | some call => readEntries call base fuel schema []

/-- Collector state: whether the non-auth / auth connections are live, and
the filtered schemas used for them. -/
structure CState where
  fc : Bool
  fcAuth : Bool
  schema : Schema
  authSchema : Schema
deriving DecidableEq

/-- The behavior of the two remote connections during a read cycle. -/
structure ReadEnv where
  callFc : CallFn
  callFcAuth : CallFn

/-- `FritzCollectd.read`: poll the non-auth schema, then the auth schema,
and fold both results into one influx fields batch (`readBatch`). -/
def read (fuel : Nat) (base : String) (env : ReadEnv) (st : CState) :
    Except PollErr (List (String × PyVal) × List CallRec) :=
  match read_data fuel base st.schema (if st.fc then some env.callFc else none) with
  | .error e => .error e
  | .ok (v1, t1) =>
    match read_data fuel base st.authSchema
        (if st.fcAuth then some env.callFcAuth else none) with
    | .error e => .error e
    | .ok (v2, t2) => .ok (readBatch v1 v2, t1 ++ t2)

deriving instance DecidableEq for Except

/-- The indexed home-automation ServiceAction of `SERVICE_ACTIONS_AUTH`:
instance field `NewIndex`, instance prefix `dect`. -/
def saDect : ServiceAction :=
  ⟨"X_AVM-DE_Homeauto:1", "GetGenericDeviceInfos",
    some "NewIndex", some "NewIndex", some "dect"⟩

def c2CallFn : CallFn := fun _ _ p =>
  match p with
  | some (_, i) => if i < 2 then .ok [("NewSwitchState", .str "ON")] else .ok []
  | none => .ok [("NewUpTime", .num 5)]

def c2rs (i : Nat) : ReadingSet :=
  if i < 2 then [("NewSwitchState", .str "ON")] else []

def c2pts (i : Nat) : List (PKey × TV) :=
  [(("house-dect" ++ toString i, "switchstate"), ("gauge", .num 1))]

/-- The output suffixes (value_instance components) of one entry's mapping. -/
def outputSuffixes (outputs : OutputMapping) : List String :=
  outputs.map (fun o => o.2.value_instance)

/-- All output suffixes a schema can ever produce. -/
def schemaSuffixes (schema : Schema) : List String :=
  (schema.map (fun e => outputSuffixes e.2)).flatten

/-- A connection answering every call with the two status outputs. -/
def c4CallFn : CallFn := fun _ _ _ =>
  .ok [("NewConnectionStatus", .str "Connected"), ("NewUptime", .num 1)]

/-- An advertised set holding only the baseline status action. -/
def c4Names : List (String × String) := [("WANIPConnection:1", "GetStatusInfo")]

/-- The values the filtered schema produces against `c4CallFn`. -/
def c4Vals : Values :=
  [(("", "constatus"), ("gauge", .num 1)), (("", "uptime"), ("uptime", .num 1))]

/-- The single invocation the filtered schema makes against `c4CallFn`. -/
def c4Trace : List CallRec := [("WANIPConnection:1", "GetStatusInfo", none)]

/-- The only failure class `init` raises: `IOError(msg)`. -/
inductive InitErr where
  | ioError (msg : String)
deriving DecidableEq

/-- What the environment answers during `init`: the connection's modelname
(None models an unreachable device), the baseline `GetStatusInfo` result,
the advertised action names, and — for the authenticated connection — the
probe outcome (`Except.error` models an XMLSyntaxError) and its advertised
action names. -/
structure InitEnv where
  modelname : Option String
  statusReadings : ReadingSet
  actionnames : List (String × String)
  authProbe : Except Unit ReadingSet
  authActionnames : List (String × String)
deriving DecidableEq

/-- A collector before its first `init`: no live connections, the unfiltered
schemas. -/
def freshCState : CState :=
  ⟨false, false, SERVICE_ACTIONS, SERVICE_ACTIONS_AUTH⟩

/-- `FritzCollectd.init`: connect, fail with IOError when the modelname is
missing or the baseline status call returns nothing (dropping the
connection first), filter the non-auth schema; with a password configured,
connect the auth connection, and on an XMLSyntaxError from the probe drop
both connections and fail with IOError; otherwise filter the auth schema. -/
def init (env : InitEnv) (password : String) (st : CState) : CState × Option InitErr :=
  let st1 : CState := { st with fc := true }
  if env.modelname = none then
    ({ st1 with fc := false }, some (.ioError "fritzcollectd: Failed to connect"))
  else if env.statusReadings = [] then
    ({ st1 with fc := false },
     some (.ioError "fritzcollectd: Statusinformation via UPnP is not enabled"))
  else
    let st2 : CState := { st1 with schema := filter_service_actions st1.schema env.actionnames }
    if password ≠ "" then
      let st3 : CState := { st2 with fcAuth := true }
      match env.authProbe with
      | .error _ =>
        ({ st3 with fc := false, fcAuth := false },
         some (.ioError "fritzcollectd: Incorrect password"))
      | .ok _ =>
        ({ st3 with
            authSchema := filter_service_actions st3.authSchema env.authActionnames },
         none)
    else (st2, none)

/-- An environment where the device is unreachable (no modelname). -/
def c5EnvUnreachable : InitEnv := ⟨none, [], [], .ok [], []⟩

/-- An environment where the baseline status check does not respond. -/
def c5EnvNoStatus : InitEnv := ⟨some "FRITZ!Box", [], [], .ok [], []⟩

/-- An environment where the authenticated probe is rejected with a
malformed response. -/
def c5EnvBadAuth : InitEnv :=
  ⟨some "FRITZ!Box", [("NewConnectionStatus", .str "Connected")], [], .error (), []⟩

/-- An exception escaping one orchestrated read cycle: a poller error other
than invalid data, or an IOError raised by the reconnect `init`. -/
inductive CycleErr where
  | poll (e : PollErr)
  | initFail (e : InitErr)
deriving DecidableEq

/-- `callback_read` for one configured collector: try `read` and dispatch
its batch; on XMLSyntaxError (invalid data) log and call `init` again
(whose own IOError would propagate); any other exception propagates. -/
def callback_read_one (fuel : Nat) (base : String) (env : ReadEnv) (initEnv : InitEnv)
    (password : String) (st : CState) :
    CState × Option (List (String × PyVal)) × Option CycleErr :=
  match read fuel base env st with
  | .ok (fields, _) => (st, some fields, none)
  | .error .invalidData =>
    match init initEnv password st with
    | (st', none) => (st', none, none)
    | (st', some e) => (st', none, some (.initFail e))
  | .error e => (st, none, some (.poll e))

/-- A read environment whose every remote call raises XMLSyntaxError. -/
def c6EnvFail : ReadEnv := ⟨fun _ _ _ => .error (), fun _ _ _ => .error ()⟩

/-- A read environment answering with the baseline status outputs. -/
def c6EnvOk : ReadEnv :=
  ⟨fun _ _ _ => .ok [("NewConnectionStatus", .str "Connected"), ("NewUptime", .num 1)],
   fun _ _ _ => .ok []⟩

/-- A collector with a live non-auth connection and the full schemas. -/
def c6State : CState := ⟨true, false, SERVICE_ACTIONS, SERVICE_ACTIONS_AUTH⟩

/-- A healthy init environment advertising only the baseline action. -/
def c6InitEnv : InitEnv :=
  ⟨some "FRITZ!Box", [("NewConnectionStatus", .str "Connected")],
   [("WANIPConnection:1", "GetStatusInfo")], .ok [], []⟩

/-- The state `init` produces from `c6State` under `c6InitEnv`. -/
def c6StateNext : CState :=
  ⟨true, false,
   filter_service_actions SERVICE_ACTIONS [("WANIPConnection:1", "GetStatusInfo")],
   SERVICE_ACTIONS_AUTH⟩

/-- The fresh batch the reconnected collector reads under `c6EnvOk`. -/
def c6Batch : List (String × PyVal) := [("constatus", .num 1), ("uptime", .num 1)]

/-- A JSON value as `json.load` returns it (Python None is `null`). -/
inductive Json where
  | null
  | num (q : ℚ)
  | str (s : String)
  | arr (items : List Json)
  | obj (fields : List (String × Json))

/-- The exceptions the configure path can raise. -/
inductive PyErr where
  | typeError
  | keyError
deriving DecidableEq

/-- Python subscript `x[key]` with a string key: a dict looks the key up
(KeyError when missing); `None[key]` and every other non-dict raise
TypeError. -/
def subscript : Json → String → Except PyErr Json
  | .obj fields, k =>
    match dget k fields with
    | some v => .ok v
    | none => .error .keyError
  | _, _ => .error .typeError

/-- `config.get_json_file`: a missing file yields Python None; an existing
file yields the parse result, or None when `json.load` raises ValueError
(`parsed = none` models that). -/
def get_json_file (fileExists : Bool) (parsed : Option Json) : Json :=
  if fileExists then
    match parsed with
    | some j => j
    | none => .null
  else .null

/-- `Config().get()`: read the fixed config path. -/
def Config_get (fileExists : Bool) (parsed : Option Json) : Json :=
  get_json_file fileExists parsed

/-- `for node in hosts: CONFIGS.append(FritzCollectd(**node))`: each node
must be a mapping (`**node` raises TypeError otherwise); the collectors
keep the per-device records. -/
def buildConfigs : List Json → Except PyErr (List Json)
  | [] => .ok []
  | .obj f :: rest =>
    match buildConfigs rest with
    | .ok cs => .ok (.obj f :: cs)
    | .error e => .error e
  | _ :: _ => .error .typeError

/-- Python iteration `for node in x`: a list yields its items, a dict its
keys, a string its characters; other values raise TypeError. -/
def pyIter : Json → Except PyErr (List Json)
  | .arr items => .ok items
  | .obj fields => .ok (fields.map (fun kv => .str kv.1))
  | .str s => .ok (s.toList.map (fun c => .str (String.mk [c])))
  | _ => .error .typeError

/-- `callback_configure`: load the configuration, subscript `'hosts'`,
iterate it and construct one collector per node. -/
def callback_configure (fileExists : Bool) (parsed : Option Json) :
    Except PyErr (List Json) :=
  match subscript (Config_get fileExists parsed) "hosts" with
  | .error e => .error e
  | .ok hosts =>
    match pyIter hosts with
    | .error e => .error e
    | .ok nodes => buildConfigs nodes

theorem dget_eq_none_of_not_mem {α β : Type} [DecidableEq α] (k : α)
    (d : List (α × β)) (h : k ∉ d.map Prod.fst) : dget k d = none := by
  induction d with
  | nil => rfl
  | cons hd tl ih =>
    simp only [List.map_cons, List.mem_cons] at h
    push_neg at h
    simp only [dget, if_neg (fun e : hd.1 = k => h.1 e.symm), ih h.2]

/-- C7: the documented conversion equations hold — `8 * 100 = 800` for the
byte send rate, `float("215") / 10 = 21.5` for the temperature,
`"Connected" ↦ 1` and `"Disconnected" ↦ 0` for the connection status — and
any field name without a registered conversion passes its raw value through
unchanged. -/
theorem conversion_equations :
    convert "NewByteSendRate" (.num 100) = some (.num 800)
    ∧ convert "NewTemperatureCelsius" (.str "215") = some (.num (43 / 2))
    ∧ convert "NewConnectionStatus" (.str "Connected") = some (.num 1)
    ∧ convert "NewConnectionStatus" (.str "Disconnected") = some (.num 0)
    ∧ ∀ (name : String) (v : PyVal),
        name ∉ CONVERSION.map Prod.fst → convert name v = some v := by
  refine ⟨?_, ?_, ?_, ?_, ?_⟩
  · simp [convert, CONVERSION, dget, convByteRate, pyMul8]
    try norm_num
  · simp [convert, CONVERSION, dget, convTemperature, pyFloat, pyFloatOfString,
      decDigits, digToNat]
    try norm_num
  · simp [convert, CONVERSION, dget, convConnectionStatus]
  · simp [convert, CONVERSION, dget, convConnectionStatus]
  · intro name v h
    simp only [convert, dget_eq_none_of_not_mem name CONVERSION h, Option.getD]

/-- Witness for C7 at the unregistered field name `"NewUptime"`. -/
theorem conversion_equations_witness :
    convert "NewUptime" (.str "12345") = some (.str "12345") :=
  conversion_equations.2.2.2.2 "NewUptime" (.str "12345") (by decide)

/-- C10: the status-string conversions are total and fail open — every
string other than the designated "up" token converts to `0` rather than
raising. -/
theorem status_conversions_fail_open :
    (∀ s : String, s ≠ "Connected" → convert "NewConnectionStatus" (.str s) = some (.num 0))
    ∧ (∀ s : String, s ≠ "Up" → convert "NewPhysicalLinkStatus" (.str s) = some (.num 0))
    ∧ (∀ s : String, s ≠ "ON" → convert "NewSwitchState" (.str s) = some (.num 0)) := by
  refine ⟨fun s hs => ?_, fun s hs => ?_, fun s hs => ?_⟩ <;>
    simp [convert, CONVERSION, dget, convConnectionStatus, convPhysicalLinkStatus,
      convSwitchState, hs]

/-- Witness for C10 at the garbage status string `"garbage"`. -/
theorem status_conversions_fail_open_witness :
    convert "NewConnectionStatus" (.str "garbage") = some (.num 0)
    ∧ convert "NewPhysicalLinkStatus" (.str "garbage") = some (.num 0)
    ∧ convert "NewSwitchState" (.str "garbage") = some (.num 0) :=
  ⟨status_conversions_fail_open.1 "garbage" (by decide),
   status_conversions_fail_open.2.1 "garbage" (by decide),
   status_conversions_fail_open.2.2 "garbage" (by decide)⟩

/-- C9: the capability filter removes exactly the entries whose
(service, action) pair is not advertised, keeps the survivors in relative
order (the result is a sublist of the input), and an all-unsupported schema
filters to the empty schema. -/
theorem capability_filter_characterization :
    (∀ (schema : Schema) (names : List (String × String)) (e : ServiceAction × OutputMapping),
      e ∈ filter_service_actions schema names ↔
        e ∈ schema ∧ (e.1.service, e.1.action) ∈ names)
    ∧ (∀ (schema : Schema) (names : List (String × String)),
        (filter_service_actions schema names).Sublist schema)
    ∧ (∀ (schema : Schema) (names : List (String × String)),
        (∀ e ∈ schema, (e.1.service, e.1.action) ∉ names) →
        filter_service_actions schema names = []) := by
  refine ⟨fun schema names e => ?_, fun schema names => ?_, fun schema names h => ?_⟩
  · simp [filter_service_actions, List.mem_filter]
  · exact List.filter_sublist schema
  · simp only [filter_service_actions, List.filter_eq_nil_iff]
    intro e he
    simp [h e he]

/-- Witness for C9: filtering the non-auth schema against an empty
advertised set yields the empty schema. -/
theorem capability_filter_characterization_witness :
    filter_service_actions SERVICE_ACTIONS [] = [] :=
  capability_filter_characterization.2.2 SERVICE_ACTIONS [] (by decide)

theorem dget_dinsert_self {α β : Type} [DecidableEq α] (k : α) (v : β) (d : List (α × β)) :
    dget k (dinsert k v d) = some v := by
  induction d with
  | nil => simp [dinsert, dget]
  | cons hd tl ih =>
    rcases hd with ⟨k', v'⟩
    by_cases e : k' = k
    · simp [dinsert, dget, e]
    · simp [dinsert, dget, e, ih]

theorem dget_dinsert_ne {α β : Type} [DecidableEq α] {k k' : α} (v : β) (d : List (α × β))
    (h : k' ≠ k) : dget k (dinsert k' v d) = dget k d := by
  induction d with
  | nil => simp [dinsert, dget, h]
  | cons hd tl ih =>
    rcases hd with ⟨k'', v''⟩
    by_cases e : k'' = k'
    · subst e
      simp [dinsert, dget, h]
    · simp [dinsert, dget, e, ih]

theorem length_dinsert_of_dget_none {α β : Type} [DecidableEq α] {k : α} (v : β)
    {d : List (α × β)} (h : dget k d = none) :
    (dinsert k v d).length = d.length + 1 := by
  induction d with
  | nil => rfl
  | cons hd tl ih =>
    rcases hd with ⟨k', v'⟩
    by_cases e : k' = k
    · simp [dget, e] at h
    · simp only [dget, if_neg e] at h
      simp [dinsert, e, ih h]

theorem mergeFields_cons (kv : PKey × TV) (rest : Values)
    (fields : List (String × PyVal)) :
    mergeFields fields (kv :: rest) = mergeFields (dinsert kv.1.2 kv.2.2 fields) rest := rfl

theorem dget_mergeFields_of_not_mem {s : String} (vals : Values) :
    ∀ fields : List (String × PyVal), s ∉ valSuffixes vals →
      dget s (mergeFields fields vals) = dget s fields := by
  induction vals with
  | nil => intro fields _; rfl
  | cons kv rest ih =>
    intro fields h
    simp only [valSuffixes, List.map_cons, List.mem_cons] at h
    push_neg at h
    rw [mergeFields_cons, ih _ h.2, dget_dinsert_ne _ _ (fun e => h.1 e.symm)]

theorem dget_mergeFields_of_mem {i s : String} {tv : TV} (vals : Values) :
    ∀ fields : List (String × PyVal), (valSuffixes vals).Nodup → ((i, s), tv) ∈ vals →
      dget s (mergeFields fields vals) = some tv.2 := by
  induction vals with
  | nil => intro _ _ hm; cases hm
  | cons kv rest ih =>
    intro fields hnd hm
    simp only [valSuffixes, List.map_cons, List.nodup_cons] at hnd
    rw [mergeFields_cons]
    rcases List.mem_cons.mp hm with he | ht
    · subst he
      have hns : s ∉ valSuffixes rest := hnd.1
      rw [dget_mergeFields_of_not_mem rest _ hns, dget_dinsert_self]
    · exact ih _ hnd.2 ht

theorem length_mergeFields (vals : Values) :
    ∀ fields : List (String × PyVal), (valSuffixes vals).Nodup →
      (∀ s ∈ valSuffixes vals, dget s fields = none) →
      (mergeFields fields vals).length = fields.length + vals.length := by
  induction vals with
  | nil => intro fields _ _; rfl
  | cons kv rest ih =>
    intro fields hnd hfresh
    simp only [valSuffixes, List.map_cons, List.nodup_cons] at hnd
    rw [mergeFields_cons]
    have hfresh' : ∀ s ∈ valSuffixes rest, dget s (dinsert kv.1.2 kv.2.2 fields) = none := by
      intro s hs
      have hne : kv.1.2 ≠ s := by
        intro e
        exact hnd.1 (e ▸ hs)
      rw [dget_dinsert_ne _ _ hne]
      exact hfresh s (List.mem_cons_of_mem _ hs)
    rw [ih _ hnd.2 hfresh',
        length_dinsert_of_dget_none _ (hfresh kv.1.2 (List.mem_cons_self _ _))]
    simp only [List.length_cons]
    ring

/-- C1 counterexample: the two poller results have disjoint
(instance identifier, output suffix) keys, yet the merged batch has one
entry, not two — `read` keys the batch by output suffix alone, so entries
under distinct instances still collide. -/
theorem read_merge_counterexample :
    (∀ k ∈ cexNonAuth.map Prod.fst, k ∉ cexAuth.map Prod.fst)
    ∧ (readBatch cexNonAuth cexAuth).length ≠ cexNonAuth.length + cexAuth.length := by
  constructor
  · decide
  · show (readBatch cexNonAuth cexAuth).length ≠ 2
    decide

/-- C1 (amended): `read` keys the merged batch by output suffix alone,
discarding the instance identifier. When the output-suffix sets of the two
poller results are disjoint (and duplicate-free within each), the merged
batch has one entry per suffix and its size is the sum of both sizes; when
a suffix occurs in both, the auth-sourced entry (folded in second) wins. -/
theorem read_merge_last_write_wins :
    (∀ vN vA : Values, (valSuffixes vN).Nodup → (valSuffixes vA).Nodup →
      (∀ s ∈ valSuffixes vN, s ∉ valSuffixes vA) →
      (readBatch vN vA).length = vN.length + vA.length)
    ∧ (∀ (vN vA : Values) (i s : String) (tv : TV),
        (valSuffixes vA).Nodup → ((i, s), tv) ∈ vA →
        dget s (readBatch vN vA) = some tv.2) := by
  constructor
  · intro vN vA hN hA hdis
    have h1 : (mergeFields [] vN).length = vN.length := by
      simpa using length_mergeFields vN [] hN (fun s _ => rfl)
    have hfresh : ∀ s ∈ valSuffixes vA, dget s (mergeFields [] vN) = none := by
      intro s hs
      have hns : s ∉ valSuffixes vN := fun h => hdis s h hs
      rw [dget_mergeFields_of_not_mem vN _ hns]
      rfl
    rw [readBatch, length_mergeFields vA _ hA hfresh, h1]
  · intro vN vA i s tv hA hm
    exact dget_mergeFields_of_mem vA _ hA hm

/-- Witness for C1 (amended): a disjoint-suffix merge of two singletons has
two entries, and on the shared suffix "uptime" the auth value 2 wins. -/
theorem read_merge_last_write_wins_witness :
    (readBatch [(("wan", "uptime"), ("uptime", PyVal.num 1))]
        [(("lan", "sendrate"), ("bitrate", PyVal.num 3))]).length = 2
    ∧ dget "uptime" (readBatch cexNonAuth cexAuth) = some (PyVal.num 2) :=
  ⟨read_merge_last_write_wins.1 _ _ (by decide) (by decide) (by decide),
   read_merge_last_write_wins.2 cexNonAuth cexAuth "box" "uptime"
     ("uptime", PyVal.num 2) (by decide) (by simp [cexAuth])⟩

/-- C8: instance naming is deterministic and joins exactly the non-empty
segments with a single '-': with base instance "house", prefix "dect" and
instance field value 7 the derived identifier is "house-dect7" (shown end
to end through the loop body `pointsOf` on the dect action, and directly on
the joining function); with empty base and no instance field it is the
empty string. -/
theorem instance_naming :
    pointsOf "house" saDect (some ("NewIndex", 7))
        [("NewSwitchState", .str "ON")]
        [("NewSwitchState", ⟨"switchstate", "gauge"⟩)]
      = .ok [(("house-dect7", "switchstate"), ("gauge", .num 1))]
    ∧ pointsOf "" ⟨"DeviceInfo:1", "GetInfo", none, none, none⟩ none
        [("NewUpTime", .num 5)]
        [("NewUpTime", ⟨"boxuptime", "uptime"⟩)]
      = .ok [(("", "boxuptime"), ("uptime", .num 5))]
    ∧ joinNonEmpty ["house", "dect" ++ pyStr (.num 7)] = "house-dect7"
    ∧ joinNonEmpty [""] = "" :=
  ⟨by decide, by decide, by decide, by decide⟩

theorem pollLoop_indexed {call : CallFn} {base : String} {sa : ServiceAction}
    {outputs : OutputMapping} {f : String} {rs : Nat → ReadingSet}
    {pts : Nat → List (PKey × TV)}
    (hf : sa.index_field = some f)
    (hcall : ∀ i, call sa.service sa.action (some (f, i)) = .ok (rs i)) :
    ∀ (N i0 fuel : Nat) (acc : Values),
      (∀ i, i0 ≤ i → i < i0 + N → rs i ≠ []) →
      rs (i0 + N) = [] →
      (∀ i, i0 ≤ i → i < i0 + N →
        pointsOf base sa (some (f, i)) (rs i) outputs = .ok (pts i)) →
      N < fuel →
      pollLoop call base sa outputs fuel i0 acc =
        .ok ((List.range' i0 N).foldl (fun a i => dupdate a (pts i)) acc,
             (List.range' i0 (N + 1)).map (fun i => (sa.service, sa.action, some (f, i)))) := by
  intro N
  induction N with
  | zero =>
    intro i0 fuel acc hne hempty hpts hfuel
    obtain ⟨fuel', rfl⟩ : ∃ m, fuel = m + 1 := ⟨fuel - 1, by omega⟩
    simp only [Nat.add_zero] at hempty
    simp only [pollLoop, hf, Option.map_some', hcall i0, hempty]
    simp [List.range']
  | succ N ih =>
    intro i0 fuel acc hne hempty hpts hfuel
    obtain ⟨fuel', rfl⟩ : ∃ m, fuel = m + 1 := ⟨fuel - 1, by omega⟩
    have hne0 : rs i0 ≠ [] := hne i0 le_rfl (by omega)
    have hpts0 : pointsOf base sa (some (f, i0)) (rs i0) outputs = .ok (pts i0) :=
      hpts i0 le_rfl (by omega)
    have hrec := ih (i0 + 1) fuel' (dupdate acc (pts i0))
      (fun i h1 h2 => hne i (by omega) (by omega))
      (by rw [show (i0 + 1) + N = i0 + (N + 1) by omega]; exact hempty)
      (fun i h1 h2 => hpts i (by omega) (by omega))
      (by omega)
    simp only [pollLoop, hf, Option.map_some', hcall i0, if_neg hne0, hpts0,
      Option.isSome_some, if_pos, hrec]
    rw [List.range'_succ i0 N 1, List.range'_succ i0 (N + 1) 1]
    simp [List.foldl_cons, List.map_cons]

theorem enumerating_poller_counts :
    (∀ (call : CallFn) (base : String) (sa : ServiceAction) (outputs : OutputMapping)
        (f : String) (rs : Nat → ReadingSet) (pts : Nat → List (PKey × TV)) (N fuel : Nat),
      sa.index_field = some f →
      (∀ i, call sa.service sa.action (some (f, i)) = .ok (rs i)) →
      (∀ i, i < N → rs i ≠ []) →
      rs N = [] →
      (∀ i, i < N → pointsOf base sa (some (f, i)) (rs i) outputs = .ok (pts i)) →
      N < fuel →
      pollLoop call base sa outputs fuel 0 [] =
        .ok ((List.range N).foldl (fun a i => dupdate a (pts i)) [],
             (List.range (N + 1)).map (fun i => (sa.service, sa.action, some (f, i)))))
    ∧ (∀ (call : CallFn) (base : String) (sa : ServiceAction) (outputs : OutputMapping)
        (rs : ReadingSet) (pts : List (PKey × TV)) (fuel : Nat),
      sa.index_field = none →
      call sa.service sa.action none = .ok rs →
      rs ≠ [] →
      pointsOf base sa none rs outputs = .ok pts →
      0 < fuel →
      pollLoop call base sa outputs fuel 0 [] =
        .ok (dupdate [] pts, [(sa.service, sa.action, none)])) := by
  constructor
  · intro call base sa outputs f rs pts N fuel hf hcall hne hempty hpts hfuel
    rw [List.range_eq_range' N, List.range_eq_range' (N + 1)]
    exact pollLoop_indexed hf hcall N 0 fuel []
      (fun i h1 h2 => hne i (by omega))
      (by simpa using hempty)
      (fun i h1 h2 => hpts i (by omega))
      hfuel
  · intro call base sa outputs rs pts fuel hf hcall hne hpts hfuel
    obtain ⟨fuel', rfl⟩ : ∃ m, fuel = m + 1 := ⟨fuel - 1, by omega⟩
    simp only [pollLoop, hf, Option.map_none', hcall, if_neg hne, hpts,
      Option.isSome_none, Bool.false_eq_true, if_neg]
    simp

theorem enumerating_poller_counts_witness :
    pollLoop c2CallFn "house" saDect [("NewSwitchState", ⟨"switchstate", "gauge"⟩)] 3 0 [] =
      .ok ((List.range 2).foldl (fun a i => dupdate a (c2pts i)) [],
           (List.range 3).map
             (fun i => ("X_AVM-DE_Homeauto:1", "GetGenericDeviceInfos", some ("NewIndex", i))))
    ∧ pollLoop c2CallFn "" ⟨"DeviceInfo:1", "GetInfo", none, none, none⟩
        [("NewUpTime", ⟨"boxuptime", "uptime"⟩)] 1 0 [] =
      .ok (dupdate [] [(("", "boxuptime"), ("uptime", .num 5))], [("DeviceInfo:1", "GetInfo", none)]) :=
  ⟨enumerating_poller_counts.1 c2CallFn "house" saDect _ "NewIndex" c2rs c2pts 2 3 rfl
      (fun i => by by_cases h : i < 2 <;> simp [c2CallFn, c2rs, h])
      (fun i hi => by
        have h01 : i = 0 ∨ i = 1 := by omega
        rcases h01 with rfl | rfl <;> decide)
      (by decide)
      (fun i hi => by
        have h01 : i = 0 ∨ i = 1 := by omega
        rcases h01 with rfl | rfl <;> decide)
      (by decide),
   enumerating_poller_counts.2 c2CallFn "" _ _ [("NewUpTime", .num 5)]
      [(("", "boxuptime"), ("uptime", .num 5))] 1 rfl rfl (by decide) (by decide) (by decide)⟩

theorem dupdate_cons {α β : Type} [DecidableEq α] (d : List (α × β)) (kv : α × β)
    (rest : List (α × β)) :
    dupdate d (kv :: rest) = dupdate (dinsert kv.1 kv.2 d) rest := rfl

theorem dinsert_keys {α β : Type} [DecidableEq α] {k key : α} {v : β} :
    ∀ {d : List (α × β)}, key ∈ (dinsert k v d).map Prod.fst →
      key = k ∨ key ∈ d.map Prod.fst := by
  intro d
  induction d with
  | nil =>
    intro h
    simp only [dinsert, List.map_cons, List.map_nil, List.mem_singleton] at h
    exact .inl h
  | cons hd tl ih =>
    intro h
    rcases hd with ⟨k', v'⟩
    by_cases e : k' = k
    · simp only [dinsert, if_pos e, List.map_cons, List.mem_cons] at h
      rcases h with rfl | h
      · exact .inr (by simp)
      · exact .inr (List.mem_cons_of_mem _ h)
    · simp only [dinsert, if_neg e, List.map_cons, List.mem_cons] at h
      rcases h with rfl | h
      · exact .inr (by simp)
      · rcases ih h with h' | h'
        · exact .inl h'
        · exact .inr (List.mem_cons_of_mem _ h')

theorem dupdate_keys {α β : Type} [DecidableEq α] :
    ∀ (pts : List (α × β)) (d : List (α × β)) (key : α),
      key ∈ (dupdate d pts).map Prod.fst →
      key ∈ d.map Prod.fst ∨ key ∈ pts.map Prod.fst := by
  intro pts
  induction pts with
  | nil => intro d key h; exact .inl h
  | cons kv rest ih =>
    intro d key h
    rw [dupdate_cons] at h
    rcases ih _ key h with hd | hr
    · rcases dinsert_keys hd with rfl | hd'
      · exact .inr (by simp)
      · exact .inl hd'
    · exact .inr (List.mem_cons_of_mem _ hr)

theorem buildPoints_keys {plugInst : String} {readings : ReadingSet} :
    ∀ {outputs : OutputMapping} {pts : List (PKey × TV)},
      buildPoints plugInst readings outputs = .ok pts →
      ∀ kv ∈ pts, kv.1.2 ∈ outputSuffixes outputs := by
  intro outputs
  induction outputs with
  | nil =>
    intro pts h kv hkv
    simp only [buildPoints, Except.ok.injEq] at h
    subst h
    cases hkv
  | cons o rest ih =>
    intro pts h kv hkv
    obtain ⟨arg, val⟩ := o
    simp only [buildPoints] at h
    cases hd : dget arg readings with
    | none => simp only [hd] at h; cases h
    | some raw =>
      simp only [hd] at h
      cases hc : convert arg raw with
      | none => simp only [hc] at h; cases h
      | some v =>
        simp only [hc] at h
        cases hb : buildPoints plugInst readings rest with
        | error e => simp only [hb] at h; cases h
        | ok pts' =>
          simp only [hb, Except.ok.injEq] at h
          subst h
          rcases List.mem_cons.mp hkv with rfl | hm
          · simp [outputSuffixes]
          · exact List.mem_cons_of_mem _ (ih hb kv hm)

theorem pointsOf_keys {base : String} {sa : ServiceAction} {params : Option (String × Nat)}
    {readings : ReadingSet} {outputs : OutputMapping} {pts : List (PKey × TV)}
    (h : pointsOf base sa params readings outputs = .ok pts) :
    ∀ kv ∈ pts, kv.1.2 ∈ outputSuffixes outputs := by
  unfold pointsOf at h
  cases hif : sa.instance_field with
  | none =>
    simp only [hif] at h
    exact buildPoints_keys h
  | some fld =>
    simp only [hif] at h
    cases hd : dget fld (updReadings params readings) with
    | none => simp only [hd] at h; cases h
    | some v =>
      simp only [hd] at h
      exact buildPoints_keys h

theorem pollLoop_trace_services {call : CallFn} {base : String} {sa : ServiceAction}
    {outputs : OutputMapping} :
    ∀ (fuel idx : Nat) (acc vals : Values) (tr : List CallRec),
      pollLoop call base sa outputs fuel idx acc = .ok (vals, tr) →
      ∀ c ∈ tr, c.1 = sa.service ∧ c.2.1 = sa.action := by
  intro fuel
  induction fuel with
  | zero =>
    intro idx acc vals tr h
    cases h
  | succ fuel ih =>
    intro idx acc vals tr h c hc
    simp only [pollLoop] at h
    cases hcall : call sa.service sa.action (sa.index_field.map (fun f => (f, idx))) with
    | error e => simp only [hcall] at h; cases h
    | ok readings =>
      simp only [hcall] at h
      by_cases hr : readings = []
      · rw [if_pos hr] at h
        simp only [Except.ok.injEq, Prod.mk.injEq] at h
        obtain ⟨-, rfl⟩ := h
        rcases List.mem_singleton.mp hc with rfl
        exact ⟨rfl, rfl⟩
      · rw [if_neg hr] at h
        cases hp : pointsOf base sa (sa.index_field.map (fun f => (f, idx))) readings outputs with
        | error e => simp only [hp] at h; cases h
        | ok pts =>
          simp only [hp] at h
          cases hidx : sa.index_field.isSome with
          | false =>
            rw [hidx] at h
            rw [if_neg Bool.false_ne_true] at h
            simp only [Except.ok.injEq, Prod.mk.injEq] at h
            obtain ⟨-, rfl⟩ := h
            rcases List.mem_singleton.mp hc with rfl
            exact ⟨rfl, rfl⟩
          | true =>
            rw [hidx] at h
            simp only [if_pos] at h
            cases hrec : pollLoop call base sa outputs fuel (idx + 1) (dupdate acc pts) with
            | error e => simp only [hrec] at h; cases h
            | ok p =>
              obtain ⟨vals', tr'⟩ := p
              simp only [hrec, Except.ok.injEq, Prod.mk.injEq] at h
              obtain ⟨-, rfl⟩ := h
              rcases List.mem_cons.mp hc with rfl | hm
              · exact ⟨rfl, rfl⟩
              · exact ih _ _ _ _ hrec c hm

theorem pollLoop_keys {call : CallFn} {base : String} {sa : ServiceAction}
    {outputs : OutputMapping} :
    ∀ (fuel idx : Nat) (acc vals : Values) (tr : List CallRec),
      pollLoop call base sa outputs fuel idx acc = .ok (vals, tr) →
      ∀ key ∈ vals.map Prod.fst,
        key ∈ acc.map Prod.fst ∨ key.2 ∈ outputSuffixes outputs := by
  intro fuel
  induction fuel with
  | zero =>
    intro idx acc vals tr h
    cases h
  | succ fuel ih =>
    intro idx acc vals tr h key hk
    simp only [pollLoop] at h
    cases hcall : call sa.service sa.action (sa.index_field.map (fun f => (f, idx))) with
    | error e => simp only [hcall] at h; cases h
    | ok readings =>
      simp only [hcall] at h
      by_cases hr : readings = []
      · rw [if_pos hr] at h
        simp only [Except.ok.injEq, Prod.mk.injEq] at h
        obtain ⟨rfl, -⟩ := h
        exact .inl hk
      · rw [if_neg hr] at h
        cases hp : pointsOf base sa (sa.index_field.map (fun f => (f, idx))) readings outputs with
        | error e => simp only [hp] at h; cases h
        | ok pts =>
          simp only [hp] at h
          have hpts : ∀ k ∈ (dupdate acc pts).map Prod.fst,
              k ∈ acc.map Prod.fst ∨ k.2 ∈ outputSuffixes outputs := by
            intro k hkk
            rcases dupdate_keys pts acc k hkk with h1 | h1
            · exact .inl h1
            · obtain ⟨kv, hkv, rfl⟩ := List.mem_map.mp h1
              exact .inr (pointsOf_keys hp kv hkv)
          cases hidx : sa.index_field.isSome with
          | false =>
            rw [hidx] at h
            rw [if_neg Bool.false_ne_true] at h
            simp only [Except.ok.injEq, Prod.mk.injEq] at h
            obtain ⟨rfl, -⟩ := h
            exact hpts key hk
          | true =>
            rw [hidx] at h
            simp only [if_pos] at h
            cases hrec : pollLoop call base sa outputs fuel (idx + 1) (dupdate acc pts) with
            | error e => simp only [hrec] at h; cases h
            | ok p =>
              obtain ⟨vals', tr'⟩ := p
              simp only [hrec, Except.ok.injEq, Prod.mk.injEq] at h
              obtain ⟨rfl, -⟩ := h
              rcases ih _ _ _ _ hrec key hk with h1 | h1
              · exact hpts key h1
              · exact .inr h1

theorem readEntries_trace {call : CallFn} {base : String} {fuel : Nat} :
    ∀ (schema : Schema) (acc vals : Values) (tr : List CallRec),
      readEntries call base fuel schema acc = .ok (vals, tr) →
      ∀ c ∈ tr, ∃ e ∈ schema, c.1 = e.1.service ∧ c.2.1 = e.1.action := by
  intro schema
  induction schema with
  | nil =>
    intro acc vals tr h c hc
    simp only [readEntries, Except.ok.injEq, Prod.mk.injEq] at h
    obtain ⟨-, rfl⟩ := h
    cases hc
  | cons e rest ih =>
    intro acc vals tr h c hc
    obtain ⟨sa, outputs⟩ := e
    simp only [readEntries] at h
    cases hp : pollLoop call base sa outputs fuel 0 acc with
    | error er => simp only [hp] at h; cases h
    | ok p =>
      obtain ⟨acc', tr1⟩ := p
      simp only [hp] at h
      cases hrest : readEntries call base fuel rest acc' with
      | error er => simp only [hrest] at h; cases h
      | ok q =>
        obtain ⟨vals', tr2⟩ := q
        simp only [hrest, Except.ok.injEq, Prod.mk.injEq] at h
        obtain ⟨rfl, rfl⟩ := h
        rcases List.mem_append.mp hc with h1 | h2
        · have hsvc := pollLoop_trace_services _ _ _ _ _ hp c h1
          exact ⟨(sa, outputs), List.mem_cons_self _ _, hsvc.1, hsvc.2⟩
        · obtain ⟨e', he', hh⟩ := ih _ _ _ hrest c h2
          exact ⟨e', List.mem_cons_of_mem _ he', hh⟩

theorem readEntries_keys {call : CallFn} {base : String} {fuel : Nat} :
    ∀ (schema : Schema) (acc vals : Values) (tr : List CallRec),
      readEntries call base fuel schema acc = .ok (vals, tr) →
      ∀ key ∈ vals.map Prod.fst,
        key ∈ acc.map Prod.fst ∨ key.2 ∈ schemaSuffixes schema := by
  intro schema
  induction schema with
  | nil =>
    intro acc vals tr h key hk
    simp only [readEntries, Except.ok.injEq, Prod.mk.injEq] at h
    obtain ⟨rfl, -⟩ := h
    exact .inl hk
  | cons e rest ih =>
    intro acc vals tr h key hk
    obtain ⟨sa, outputs⟩ := e
    simp only [readEntries] at h
    cases hp : pollLoop call base sa outputs fuel 0 acc with
    | error er => simp only [hp] at h; cases h
    | ok p =>
      obtain ⟨acc', tr1⟩ := p
      simp only [hp] at h
      cases hrest : readEntries call base fuel rest acc' with
      | error er => simp only [hrest] at h; cases h
      | ok q =>
        obtain ⟨vals', tr2⟩ := q
        simp only [hrest, Except.ok.injEq, Prod.mk.injEq] at h
        obtain ⟨rfl, -⟩ := h
        rcases ih _ _ _ hrest key hk with h1 | h1
        · rcases pollLoop_keys _ _ _ _ _ hp key h1 with h2 | h2
          · exact .inl h2
          · refine .inr ?_
            simp only [schemaSuffixes, List.map_cons, List.flatten_cons, List.mem_append]
            exact .inl h2
        · refine .inr ?_
          simp only [schemaSuffixes, List.map_cons, List.flatten_cons, List.mem_append]
          exact .inr h1

/-- C4: after the capability filter, the poller only ever invokes surviving
entries — every invocation in the read trace names a (service, action) pair
of the advertised set — and every produced metric key's output suffix
belongs to a surviving entry's output mapping; a `None` connection
contributes no invocations and no points. -/
theorem no_unsupported_invocations :
    (∀ (schema : Schema) (names : List (String × String)) (call : CallFn)
        (base : String) (fuel : Nat) (vals : Values) (tr : List CallRec),
      read_data fuel base (filter_service_actions schema names) (some call) = .ok (vals, tr) →
      (∀ c ∈ tr, (c.1, c.2.1) ∈ names)
      ∧ (∀ key ∈ vals.map Prod.fst,
          key.2 ∈ schemaSuffixes (filter_service_actions schema names)))
    ∧ (∀ (fuel : Nat) (base : String) (schema : Schema),
        read_data fuel base schema none = .ok ([], [])) := by
  constructor
  · intro schema names call base fuel vals tr h
    have h' : readEntries call base fuel (filter_service_actions schema names) [] =
        .ok (vals, tr) := h
    constructor
    · intro c hc
      obtain ⟨e, he, h1, h2⟩ := readEntries_trace _ _ _ _ h' c hc
      have hm : (e.1.service, e.1.action) ∈ names := by
        have hf := (List.mem_filter.mp he).2
        simpa using hf
      rw [h1, h2]
      exact hm
    · intro key hk
      rcases readEntries_keys _ _ _ _ h' key hk with h0 | h0
      · cases h0
      · exact h0
  · intro fuel base schema
    rfl

/-- Witness for C4 on the non-auth schema filtered to the baseline action. -/
theorem no_unsupported_invocations_witness :
    ((∀ c ∈ c4Trace, (c.1, c.2.1) ∈ c4Names)
     ∧ (∀ key ∈ c4Vals.map Prod.fst,
         key.2 ∈ schemaSuffixes (filter_service_actions SERVICE_ACTIONS c4Names)))
    ∧ read_data 1 "" SERVICE_ACTIONS none = .ok ([], []) :=
  ⟨no_unsupported_invocations.1 SERVICE_ACTIONS c4Names c4CallFn "" 1 c4Vals c4Trace
      rfl,
   no_unsupported_invocations.2 1 "" SERVICE_ACTIONS⟩

/-- C5: on a fresh collector, every failing `init` is an IOError-class
failure that leaves no live connection (neither non-auth nor auth), and
each of the three scenarios fails: unreachable device (no modelname),
baseline status check not answering, and — with credentials — an
authenticated probe rejected with a malformed response, which kills the
whole collector, not just the auth half. -/
theorem init_failures_leave_no_partial_collector :
    (∀ (env : InitEnv) (password : String) (e : InitErr),
      (init env password freshCState).2 = some e →
      (init env password freshCState).1.fc = false
      ∧ (init env password freshCState).1.fcAuth = false)
    ∧ (∀ (env : InitEnv) (password : String), env.modelname = none →
        (init env password freshCState).2 =
          some (.ioError "fritzcollectd: Failed to connect"))
    ∧ (∀ (env : InitEnv) (password : String),
        env.modelname ≠ none → env.statusReadings = [] →
        (init env password freshCState).2 =
          some (.ioError "fritzcollectd: Statusinformation via UPnP is not enabled"))
    ∧ (∀ (env : InitEnv) (password : String) (u : Unit),
        env.modelname ≠ none → env.statusReadings ≠ [] → password ≠ "" →
        env.authProbe = .error u →
        (init env password freshCState).2 =
          some (.ioError "fritzcollectd: Incorrect password")) := by
  refine ⟨?_, ?_, ?_, ?_⟩
  · intro env password e h
    unfold init at h ⊢
    by_cases h1 : env.modelname = none
    · simp [h1, freshCState]
    · by_cases h2 : env.statusReadings = []
      · simp [h1, h2, freshCState]
      · by_cases h3 : password = ""
        · simp [h1, h2, h3] at h
        · cases hp : env.authProbe with
          | error u => simp [h1, h2, h3, hp]
          | ok r => simp [h1, h2, h3, hp] at h
  · intro env password h1
    unfold init
    simp [h1]
  · intro env password h1 h2
    unfold init
    simp [h1, h2]
  · intro env password u h1 h2 h3 hp
    unfold init
    simp [h1, h2, h3, hp]

/-- Witness for C5 at the three concrete failing environments. -/
theorem init_failures_witness :
    (init c5EnvUnreachable "" freshCState).2 =
        some (.ioError "fritzcollectd: Failed to connect")
    ∧ (init c5EnvUnreachable "" freshCState).1.fc = false
    ∧ (init c5EnvUnreachable "" freshCState).1.fcAuth = false
    ∧ (init c5EnvNoStatus "" freshCState).2 =
        some (.ioError "fritzcollectd: Statusinformation via UPnP is not enabled")
    ∧ (init c5EnvBadAuth "secret" freshCState).2 =
        some (.ioError "fritzcollectd: Incorrect password")
    ∧ (init c5EnvBadAuth "secret" freshCState).1.fc = false
    ∧ (init c5EnvBadAuth "secret" freshCState).1.fcAuth = false := by
  have h1 := init_failures_leave_no_partial_collector.2.1 c5EnvUnreachable "" rfl
  have h2 := init_failures_leave_no_partial_collector.1 c5EnvUnreachable "" _ h1
  have h3 := init_failures_leave_no_partial_collector.2.2.1 c5EnvNoStatus ""
    (by decide) rfl
  have h4 := init_failures_leave_no_partial_collector.2.2.2 c5EnvBadAuth "secret" ()
    (by decide) (by decide) (by decide) rfl
  have h5 := init_failures_leave_no_partial_collector.1 c5EnvBadAuth "secret" _ h4
  exact ⟨h1, h2.1, h2.2, h3, h4, h5.1, h5.2⟩

/-- C6: an invalid-data failure during `read` aborts only the current cycle
(nothing is dispatched and the error is not retried within the cycle), the
orchestrator catches it and calls `init` again, and the next `read` starts
from the reinitialized state and returns a fresh batch. -/
theorem invalid_data_recovery :
    ∀ (fuel : Nat) (base : String) (env envNext : ReadEnv) (initEnv : InitEnv)
      (password : String) (st st' : CState) (batch : List (String × PyVal))
      (tr : List CallRec),
      read fuel base env st = .error .invalidData →
      init initEnv password st = (st', none) →
      read fuel base envNext st' = .ok (batch, tr) →
      callback_read_one fuel base env initEnv password st = (st', none, none)
      ∧ read fuel base envNext
          (callback_read_one fuel base env initEnv password st).1 = .ok (batch, tr) := by
  intro fuel base env envNext initEnv password st st' batch tr hread hinit hnext
  have hc : callback_read_one fuel base env initEnv password st = (st', none, none) := by
    unfold callback_read_one
    simp only [hread, hinit]
  exact ⟨hc, by rw [hc]; exact hnext⟩

/-- Witness for C6: a concrete failing cycle followed by reinit and a fresh
successful read. -/
theorem invalid_data_recovery_witness :
    callback_read_one 1 "" c6EnvFail c6InitEnv "" c6State = (c6StateNext, none, none)
    ∧ read 1 "" c6EnvOk (callback_read_one 1 "" c6EnvFail c6InitEnv "" c6State).1 =
        .ok (c6Batch, [("WANIPConnection:1", "GetStatusInfo", none)]) :=
  invalid_data_recovery 1 "" c6EnvFail c6EnvOk c6InitEnv "" c6State c6StateNext c6Batch
    [("WANIPConnection:1", "GetStatusInfo", none)] rfl rfl rfl

/-- C3 counterexample: with the config file absent, loading yields Python
None — not an empty sequence — and the configure step raises TypeError when
it subscripts None with 'hosts', instead of completing without failure. -/
theorem configure_missing_file_counterexample :
    Config_get false none ≠ .arr []
    ∧ callback_configure false none = .error .typeError := by
  constructor
  · intro h
    exact Json.noConfusion h
  · rfl

/-- C3 (amended): when the configuration backing store is absent, loading
yields None (Python null), not an empty sequence, and the configure step
fails with a TypeError when it subscripts the missing configuration; no
collector is created. -/
theorem configure_missing_file :
    ∀ parsed : Option Json,
      Config_get false parsed = .null
      ∧ callback_configure false parsed = .error .typeError := by
  intro parsed
  exact ⟨rfl, rfl⟩
